import Mathlib

/-!
Shallow embedding of the tag-reconciliation engine of `_add_gene_list.py`
from the `notion-utils` repository.

The embedding models:
  * the `RateLimiter` class (timestamps as rationals, `time.sleep` exact);
  * the schema-reconciliation step of `add_category_tags` (lines 239-287);
  * the paginated fetch loop (lines 294-328), including the unconditional
    `break` at line 326 that ends the loop after the first batch;
  * the per-record tag-diff-and-apply loop (lines 346-448) with its
    statistics accumulator;
  * the remote service as an explicit environment: schema fetch/patch
    outcomes, the sequence of query responses, and the set of page ids
    whose property-patch requests fail.
-/

namespace NotionUtils

/-- One option of the multi-select column of the database schema:
a `{"name": ..., "color": ...}` dictionary in the source. -/
structure SchemaOption where
  name : String
  color : String
deriving Repr, DecidableEq

/-- A page property value, as far as the engine inspects it:
`title` and `rich_text` carry the list of `plain_text` fields of their
fragments, `select` carries the selected option's name when an option is
set, `multiSelect` carries the list of option names. -/
inductive PropValue where
  | title (texts : List String)
  | richText (texts : List String)
  | select (chosen : Option String)
  | multiSelect (tags : List String)
  | other
deriving Repr, DecidableEq

/-- A remote page: its id and its property dictionary
(association list keyed by property name). -/
structure Page where
  id : String
  properties : List (String × PropValue)
deriving Repr, DecidableEq

/-- The caller-supplied `gene_categories` dictionary: category name to
list of member genes, in iteration order. -/
abbrev CategoryMap := List (String × List String)

/-- Configuration of the multi-select column in the database schema:
absent, a multi-select with its option list, or present with another type
(which makes the engine raise `ValueError`). -/
inductive ColumnConfig where
  | absent
  | multiSelect (options : List SchemaOption)
  | otherType
deriving Repr, DecidableEq

/-- One response of the paginated query endpoint: HTTP success flag,
the `results` batch, the `has_more` flag and the `next_cursor`. -/
structure QueryResponse where
  ok : Bool
  results : List Page
  has_more : Bool
  next_cursor : Option String
deriving Repr, DecidableEq

/-- The remote service as seen by one run: outcome of the schema fetch,
the column configuration, outcome of the schema patch, the sequence of
query responses, and the ids of pages whose property patch fails. -/
structure RemoteEnv where
  schemaFetchOk : Bool
  schema : ColumnConfig
  schemaPatchOk : Bool
  batches : List QueryResponse
  failingPages : List String
deriving Repr, DecidableEq

/-- The `stats` dictionary built at lines 334-343 of the source. -/
structure Stats where
  total_pages : Nat
  pages_updated : Nat
  pages_skipped : Nat
  genes_found : Nat
  genes_with_categories : Nat
  tags_added : Nat
  tags_removed : Nat
  errors : List String
deriving Repr, DecidableEq

/-- All quantities the per-page loop derives from one page. -/
structure PageOutcome where
  geneFound : Bool
  hasCats : Bool
  newTags : List String
  changed : Bool
  addedCount : Nat
  removedCount : Nat
deriving Repr, DecidableEq

/-- Accumulator of the per-page loop: statistics, the property-patch
requests issued so far, and the remote pages as left behind by the loop. -/
structure LoopState where
  stats : Stats
  patches : List (String × List String)
  newPages : List Page
deriving Repr, DecidableEq

/-- Result of the fetch loop: accumulated pages and number of query
calls issued. -/
structure FetchResult where
  pages : List Page
  queryCalls : Nat
deriving Repr, DecidableEq

/-- Result of one successful engine run: the returned statistics, the
mutating requests issued, the number of query calls, and the remote
state (schema and pages) after the run. -/
structure RunResult where
  stats : Stats
  schemaPatches : List (List SchemaOption)
  pagePatches : List (String × List String)
  queryCalls : Nat
  finalSchema : ColumnConfig
  finalPages : List Page
deriving Repr, DecidableEq

/-- The `RateLimiter` class state: `max_per_second`, the derived
`min_interval = 1 / max_per_second`, and `last_request_time`. -/
structure RateLimiter where
  max_per_second : ℚ
  min_interval : ℚ
  last_request_time : ℚ
deriving Repr, DecidableEq

/-- The `RateLimiter.__init__` constructor: `last_request_time = 0`. -/
def RateLimiter.init (m : ℚ) : RateLimiter :=
  ⟨m, 1 / m, 0⟩

/-- The `wait_if_needed` method. `now` is the value `time.time()` returns
at entry; sleeping is modelled as exact, so the second `time.time()` call
reads `now + sleep_time`. Returns the slept amount and the new state. -/
def wait_if_needed (rl : RateLimiter) (now : ℚ) : ℚ × RateLimiter :=
  let time_since_last := now - rl.last_request_time
  let sleep_time :=
    if time_since_last < rl.min_interval then rl.min_interval - time_since_last else 0
  (sleep_time, ⟨rl.max_per_second, rl.min_interval, now + sleep_time⟩)

/-- Feed a sequence of clock readings through `wait_if_needed`,
one reading per call. -/
def runCalls : RateLimiter → List ℚ → RateLimiter
  | rl, [] => rl
  | rl, t :: ts => runCalls (wait_if_needed rl t).2 ts

/-- The clock readings are admissible: each call observes a `time.time()`
value no earlier than the completion time of the previous call. -/
def clockMono : RateLimiter → List ℚ → Prop
  | _, [] => True
  | rl, t :: ts => rl.last_request_time ≤ t ∧ clockMono (wait_if_needed rl t).2 ts

/-- The fixed color palette of line 252 of the source. -/
def colors : List String :=
  ["red", "blue", "green", "yellow", "purple", "pink", "orange", "brown", "gray"]

/-- The color `colors[i % len(colors)]` assigned at line 260. -/
def paletteColor (i : Nat) : String :=
  colors.get ⟨i % colors.length, Nat.mod_lt _ (by decide)⟩

/-- The key list `all_tags = list(gene_categories.keys())` (line 225). -/
def allTags (gc : CategoryMap) : List String :=
  gc.map Prod.fst

/-- The list `gene_to_categories[g]` built at lines 212-217: for each
category in iteration order, the category name is appended once per
occurrence of `g` in that category's gene list. The gene is a key of
`gene_to_categories` exactly when this list is nonempty. -/
def catsOfGene (g : String) : CategoryMap → List String
  | [] => []
  | p :: rest =>
      (p.2.filter (fun x => decide (x = g))).map (fun _ => p.1) ++ catsOfGene g rest

/-- The loop of lines 255-262: walk `all_tags` with its `enumerate`
index, appending a fresh option (colored by the index in `all_tags`) and
recording the tag, whenever the tag is not among the pre-existing option
names. `exNames` is the fixed `existing_names` set of line 249. -/
def schemaLoop (exNames : List String) :
    Nat → List String → List SchemaOption → List String →
    List SchemaOption × List String
  | _, [], opts, adds => (opts, adds)
  | i, t :: ts, opts, adds =>
      if decide (t ∈ exNames) then schemaLoop exNames (i + 1) ts opts adds
      else schemaLoop exNames (i + 1) ts (opts ++ [⟨t, paletteColor i⟩]) (adds ++ [t])

/-- The schema-reconciliation computation (lines 249-262): from the key
list and the existing options, the `new_options` list (started as a copy
of the existing options) and the `tags_to_add` list. -/
def schemaStep (tags : List String) (ex : List SchemaOption) :
    List SchemaOption × List String :=
  schemaLoop (ex.map SchemaOption.name) 0 tags ex []

/-- Closed form of the additions `schemaLoop` makes, for reasoning. -/
def schemaAdds (exNames : List String) : Nat → List String → List SchemaOption
  | _, [] => []
  | i, t :: ts =>
      if decide (t ∈ exNames) then schemaAdds exNames (i + 1) ts
      else ⟨t, paletteColor i⟩ :: schemaAdds exNames (i + 1) ts

/-- The option list of the column when it already exists as a
multi-select; otherwise the empty list (lines 239-247). -/
def existingOptions : ColumnConfig → List SchemaOption
  | ColumnConfig.multiSelect o => o
  | _ => []

/-- Dictionary lookup in a page's property dictionary: value of the first
entry carrying the key. -/
def lookupProp : List (String × PropValue) → String → Option PropValue
  | [], _ => none
  | q :: rest, nm => if q.1 = nm then some q.2 else lookupProp rest nm

/-- Python dictionary assignment `props[col] = v`: replace the entry in
place when the key exists, append a new entry otherwise. -/
def setProp : List (String × PropValue) → String → PropValue →
    List (String × PropValue)
  | [], col, v => [(col, v)]
  | q :: rest, col, v =>
      if q.1 = col then (col, v) :: rest else q :: setProp rest col v

/-- The candidate identifier property names of line 355, in priority order. -/
def candidateProps : List String :=
  ["gene_name", "Gene Name", "Gene", "Name", "Title"]

/-- One candidate property's contribution to gene-name resolution
(lines 366-377): a nonempty `title` or `rich_text` yields its first
fragment's `plain_text`; a set `select` yields its option name;
anything else does not resolve and the loop moves on. -/
def resolveFromProp : PropValue → Option String
  | PropValue.title ts => ts.head?
  | PropValue.richText ts => ts.head?
  | PropValue.select s => s
  | _ => none

/-- Walk a list of candidate property names; the first one that is
present and resolves wins (the `break` statements of lines 369-377). -/
def firstResolved (props : List (String × PropValue)) : List String → Option String
  | [] => none
  | nm :: rest =>
      match (lookupProp props nm).bind resolveFromProp with
      | some g => some g
      | none => firstResolved props rest

/-- Gene-name resolution (lines 351-377): first candidate property that
is present and resolves wins. -/
def resolveGeneName (props : List (String × PropValue)) : Option String :=
  firstResolved props candidateProps

/-- Python truthiness of the resolved `gene_name`: a string that is
neither `None` nor empty. -/
def truthy : Option String → Bool
  | some g => decide (g ≠ "")
  | none => false

/-- The test `gene_name and gene_name in gene_to_categories` (line 393). -/
def geneInIndex (gc : CategoryMap) (gn : Option String) : Bool :=
  match gn with
  | some g => decide (g ≠ "") && decide (catsOfGene g gc ≠ [])
  | none => false

/-- The `category_tags` value (lines 391-394): the index entry of the
resolved gene, or the empty list. -/
def categoryTagsFor (gc : CategoryMap) (gn : Option String) : List String :=
  if geneInIndex gc gn then catsOfGene (gn.getD "") gc else []

/-- The `existing_tags` of one page (lines 383-387): the names stored in
the multi-select column property, when present with that type. -/
def existingTagsOf (props : List (String × PropValue)) (col : String) : List String :=
  match lookupProp props col with
  | some (PropValue.multiSelect ts) => ts
  | _ => []

/-- Python `set(a) == set(b)` on lists of strings. -/
def sameSet (a b : List String) : Bool :=
  a.all (fun t => decide (t ∈ b)) && b.all (fun t => decide (t ∈ a))

/-- Size of the set difference `set(a) - set(b)` (lines 405-406). -/
def setDiffCard (a b : List String) : Nat :=
  ((a.filter (fun t => decide (t ∉ b))).dedup).length

/-- Everything the per-page loop body (lines 346-408) derives from one
page before deciding how to act: resolved identifier truthiness,
membership, the recomputed tag list, and the diff counters. -/
def processPage (gc : CategoryMap) (col : String) (p : Page) : PageOutcome :=
  let gn := resolveGeneName p.properties
  let e := existingTagsOf p.properties col
  let preserved := e.filter (fun t => decide (t ∉ allTags gc))
  let cats := categoryTagsFor gc gn
  let n := preserved ++ cats
  { geneFound := truthy gn
    hasCats := geneInIndex gc gn
    newTags := n
    changed := !sameSet e n
    addedCount := setDiffCard n e
    removedCount := setDiffCard e n }

/-- The fresh statistics accumulator (lines 334-343). -/
def initStats (n : Nat) : Stats :=
  ⟨n, 0, 0, 0, 0, 0, 0, []⟩

/-- One iteration of the per-page loop (lines 346-448): count the
resolved gene, recompute the tag set, and when it differs issue a
property patch (in non-dry mode), recording success, failure or
would-update in the statistics; the page's remote state changes exactly
when a patch is issued and succeeds. -/
def stepPage (gc : CategoryMap) (col : String) (dry : Bool) (failing : List String)
    (st : LoopState) (p : Page) : LoopState :=
  let o := processPage gc col p
  let ok := !(decide (p.id ∈ failing))
  { stats :=
    { total_pages := st.stats.total_pages
      pages_updated := st.stats.pages_updated +
        (if o.changed then (if dry || ok then 1 else 0) else 0)
      pages_skipped := st.stats.pages_skipped + (if o.changed then 0 else 1)
      genes_found := st.stats.genes_found + (if o.geneFound then 1 else 0)
      genes_with_categories := st.stats.genes_with_categories +
        (if o.hasCats then 1 else 0)
      tags_added := st.stats.tags_added + (if o.changed then o.addedCount else 0)
      tags_removed := st.stats.tags_removed + (if o.changed then o.removedCount else 0)
      errors := st.stats.errors ++
        (if o.changed && !dry && !ok then ["Failed to update page " ++ p.id] else []) }
    patches := st.patches ++ (if o.changed && !dry then [(p.id, o.newTags)] else [])
    newPages := st.newPages ++
      [if o.changed && !dry && ok then
        { p with properties := setProp p.properties col (PropValue.multiSelect o.newTags) }
       else p] }

/-- The per-page loop over all fetched pages. -/
def runPages (gc : CategoryMap) (col : String) (dry : Bool) (failing : List String)
    (pages : List Page) : LoopState :=
  pages.foldl (stepPage gc col dry failing) ⟨initStats pages.length, [], []⟩

/-- The remote state of one page after the loop, in non-dry mode with a
succeeding patch: the multi-select column holds the recomputed tags when
they differed, otherwise the page is untouched. -/
def postPage (gc : CategoryMap) (col : String) (p : Page) : Page :=
  if (processPage gc col p).changed then
    { p with
      properties := setProp p.properties col
        (PropValue.multiSelect (processPage gc col p).newTags) }
  else p

/-- The fetch loop of lines 294-327. The loop body ends with an
unconditional `break` (line 326), so exactly one query call is issued:
a failing response raises, a successful one contributes its batch and the
loop exits regardless of `has_more`. -/
def fetchLoop (responses : List QueryResponse) : Except String FetchResult :=
  match responses with
  | [] => Except.error "no response from remote"
  | r :: _ =>
      if r.ok then Except.ok ⟨r.results, 1⟩
      else Except.error "Failed to query database"

/-- The column's property value, when present, is a multi-select —
the consistency the remote service guarantees between a database schema
whose column is (or becomes) a multi-select and its pages. -/
def colConsistent (col : String) (p : Page) : Bool :=
  p.properties.all (fun q =>
    !(decide (q.1 = col)) ||
      (match q.2 with | PropValue.multiSelect _ => true | _ => false))

/-- The whole `add_category_tags` run: schema fetch (line 228), column
type check (lines 240-247), schema reconciliation and patch
(lines 249-287), single-batch fetch (lines 294-328), and the per-page
loop (lines 346-448); a fatal error raises before the summary, a
completed run returns the statistics. -/
def runEngine (gc : CategoryMap) (col : String) (dry : Bool) (env : RemoteEnv) :
    Except String RunResult :=
  if env.schemaFetchOk = false then Except.error "Failed to fetch database"
  else if env.schema = ColumnConfig.otherType then
    Except.error "Column is not a multi-select type"
  else
    let ex := existingOptions env.schema
    let so := schemaStep (allTags gc) ex
    let doPatch := !so.2.isEmpty && !dry
    if doPatch && !env.schemaPatchOk then
      Except.error "Failed to update database schema"
    else
      match fetchLoop env.batches with
      | Except.error e => Except.error e
      | Except.ok fr =>
          let ls := runPages gc col dry env.failingPages fr.pages
          Except.ok
            { stats := ls.stats
              schemaPatches := if doPatch then [so.1] else []
              pagePatches := ls.patches
              queryCalls := fr.queryCalls
              finalSchema :=
                if doPatch then ColumnConfig.multiSelect so.1 else env.schema
              finalPages := ls.newPages }

/-- The remote environment a second run observes after a first run that
completed with all writes succeeding: the patched schema, the written
pages served as one batch, and an all-success remote. -/
def secondEnv (r : RunResult) : RemoteEnv :=
  { schemaFetchOk := true
    schema := r.finalSchema
    schemaPatchOk := true
    batches := [⟨true, r.finalPages, false, none⟩]
    failingPages := [] }

/-! Helper lemmas about the schema-reconciliation step. -/

theorem schemaLoop_eq (exN : List String) (ts : List String) :
    ∀ (i : Nat) (opts : List SchemaOption) (adds : List String),
    schemaLoop exN i ts opts adds =
      (opts ++ schemaAdds exN i ts,
       adds ++ ts.filter (fun t => decide (t ∉ exN))) := by
  induction ts with
  | nil => intro i opts adds; simp [schemaLoop, schemaAdds]
  | cons t ts ih =>
      intro i opts adds
      by_cases h : t ∈ exN
      · simp [schemaLoop, schemaAdds, h, ih]
      · simp [schemaLoop, schemaAdds, h, ih]

theorem schemaStep_eq (tags : List String) (ex : List SchemaOption) :
    schemaStep tags ex =
      (ex ++ schemaAdds (ex.map SchemaOption.name) 0 tags,
       tags.filter (fun t => decide (t ∉ ex.map SchemaOption.name))) := by
  simp [schemaStep, schemaLoop_eq]

theorem schemaAdds_eq_enumFrom (exN : List String) (ts : List String) :
    ∀ i : Nat,
    schemaAdds exN i ts =
      ((List.enumFrom i ts).filter (fun q => decide (q.2 ∉ exN))).map
        (fun q => SchemaOption.mk q.2 (paletteColor q.1)) := by
  induction ts with
  | nil => intro i; simp [schemaAdds]
  | cons t ts ih =>
      intro i
      by_cases h : t ∈ exN
      · simp [schemaAdds, List.enumFrom, h, ih]
      · simp [schemaAdds, List.enumFrom, h, ih]

theorem mem_schemaAdds_names (exN : List String) (ts : List String) :
    ∀ (i : Nat) (t : String), t ∈ ts → t ∉ exN →
      t ∈ (schemaAdds exN i ts).map SchemaOption.name := by
  induction ts with
  | nil => intro i t ht _; simp at ht
  | cons u ts ih =>
      intro i t ht hnot
      rcases List.mem_cons.mp ht with h | h
      · subst h
        simp [schemaAdds, hnot]
      · by_cases hu : u ∈ exN
        · simpa [schemaAdds, hu] using ih (i + 1) t h hnot
        · have hrw : schemaAdds exN i (u :: ts)
              = ⟨u, paletteColor i⟩ :: schemaAdds exN (i + 1) ts := by
            simp [schemaAdds, hu]
          rw [hrw, List.map_cons]
          exact List.mem_cons_of_mem _ (ih (i + 1) t h hnot)

theorem mem_schemaStep_names (tags : List String) (ex : List SchemaOption)
    (t : String) (ht : t ∈ tags) :
    t ∈ ((schemaStep tags ex).1).map SchemaOption.name := by
  rw [schemaStep_eq]
  simp only [List.map_append, List.mem_append]
  by_cases h : t ∈ ex.map SchemaOption.name
  · exact Or.inl h
  · exact Or.inr (mem_schemaAdds_names _ tags 0 t ht h)

theorem schemaStep_adds_nil_iff (tags : List String) (ex : List SchemaOption) :
    (schemaStep tags ex).2 = [] ↔ ∀ t ∈ tags, t ∈ ex.map SchemaOption.name := by
  rw [schemaStep_eq]
  simp [List.filter_eq_nil_iff]

/-- C3. Pagination completeness fails in the code: the loop body of
lines 298-326 ends in an unconditional `break`, so on a response sequence
whose first batch reports `has_more = true`, the engine still issues
exactly one query call and reconciles only the first batch, instead of
the `k = 2` calls the claim requires. This theorem evaluates the embedded
fetch loop at that failing input. -/
theorem fetch_stops_after_first_batch :
    fetchLoop
      [⟨true, [⟨"q1", []⟩], true, some "c1"⟩,
       ⟨true, [⟨"q2", []⟩], false, none⟩]
      = Except.ok ⟨[⟨"q1", []⟩], 1⟩ := rfl

/-- C5. Non-destructive schema growth: the computed option list keeps
every pre-existing option unchanged in its original position (it is the
prefix of length `ex.length`), and its name set contains every category
name and every pre-existing option name. -/
theorem schema_growth_nondestructive (tags : List String) (ex : List SchemaOption) :
    ((schemaStep tags ex).1).take ex.length = ex
    ∧ (∀ o ∈ ex, o ∈ (schemaStep tags ex).1)
    ∧ (∀ t ∈ tags, t ∈ ((schemaStep tags ex).1).map SchemaOption.name)
    ∧ (∀ t ∈ ex.map SchemaOption.name,
        t ∈ ((schemaStep tags ex).1).map SchemaOption.name) := by
  refine ⟨?_, ?_, ?_, ?_⟩
  · rw [schemaStep_eq]; exact List.take_left ex _
  · intro o ho; rw [schemaStep_eq]; exact List.mem_append_left _ ho
  · intro t ht; exact mem_schemaStep_names tags ex t ht
  · intro t ht; rw [schemaStep_eq]
    simpa [List.map_append] using Or.inl ht

/-- C5 witness: the spec scenario — schema `["X"]`, categories `A`, `B`. -/
theorem schema_growth_nondestructive_witness :
    ((schemaStep ["A", "B"] [⟨"X", "gray"⟩]).1).take 1 = [⟨"X", "gray"⟩]
    ∧ "A" ∈ ((schemaStep ["A", "B"] [⟨"X", "gray"⟩]).1).map SchemaOption.name :=
  ⟨(schema_growth_nondestructive ["A", "B"] [⟨"X", "gray"⟩]).1,
   (schema_growth_nondestructive ["A", "B"] [⟨"X", "gray"⟩]).2.2.1 "A" (by decide)⟩

/-- C6 counterexample: with categories `["A", "B"]` and `"A"` already in
the schema, the single genuinely new category `"B"` is appended with
color `colors[1] = "blue"` — not `colors[0] = "red"` as the claim
(palette indexed by position among the new values) requires. -/
theorem palette_index_counterexample :
    (schemaStep ["A", "B"] [⟨"A", "red"⟩]).1
        = [⟨"A", "red"⟩, ⟨"B", "blue"⟩]
    ∧ paletteColor 0 = "red" ∧ "blue" ≠ "red" := by
  refine ⟨rfl, rfl, ?_⟩; decide

/-- C6 amended: a new option's palette index is the category's position
in the iteration over all CategoryMap keys (`enumerate(all_tags)`), not
its position among the genuinely new values: the appended options are
exactly the enumerated keys missing from the schema, each colored by its
global index. -/
theorem palette_color_by_alltags_index (tags : List String) (ex : List SchemaOption) :
    (schemaStep tags ex).1
      = ex ++ ((tags.enum.filter
            (fun q => decide (q.2 ∉ ex.map SchemaOption.name))).map
          (fun q => SchemaOption.mk q.2 (paletteColor q.1))) := by
  rw [schemaStep_eq, List.enum, schemaAdds_eq_enumFrom]

/-! Helper lemmas about the per-record tag computation. -/

theorem mem_catsOfGene_allTags (g t : String) :
    ∀ gc : CategoryMap, t ∈ catsOfGene g gc → t ∈ allTags gc := by
  intro gc
  induction gc with
  | nil => simp [catsOfGene]
  | cons p rest ih =>
      intro h
      rcases List.mem_append.mp h with h' | h'
      · rcases List.mem_map.mp h' with ⟨x, _, hx⟩
        simp [allTags, ← hx]
      · simp only [allTags, List.map_cons, List.mem_cons]
        exact Or.inr (ih h')

theorem filter_idem {α : Type} (p : α → Bool) (l : List α) :
    (l.filter p).filter p = l.filter p := by
  induction l with
  | nil => rfl
  | cons a l ih =>
      by_cases h : p a
      · simp [List.filter_cons, h, ih]
      · simp [List.filter_cons, h, ih]

theorem filter_nil_of_mem_allTags (gc : CategoryMap) (l : List String)
    (h : ∀ t ∈ l, t ∈ allTags gc) :
    l.filter (fun t => decide (t ∉ allTags gc)) = [] := by
  rw [List.filter_eq_nil_iff]
  intro t ht
  simpa using h t ht

theorem categoryTagsFor_mem_allTags (gc : CategoryMap) (gn : Option String)
    (t : String) (h : t ∈ categoryTagsFor gc gn) : t ∈ allTags gc := by
  unfold categoryTagsFor at h
  by_cases hg : geneInIndex gc gn = true
  · rw [if_pos hg] at h
    exact mem_catsOfGene_allTags _ t gc h
  · rw [if_neg hg] at h
    simp at h

theorem sameSet_self (l : List String) : sameSet l l = true := by
  simp [sameSet, List.all_eq_true]

theorem sameSet_filter_iff (e : List String) (p : String → Bool) :
    sameSet e (e.filter p) = true ↔ ∀ t ∈ e, p t = true := by
  constructor
  · intro h t ht
    unfold sameSet at h
    rw [Bool.and_eq_true] at h
    have h2 := (List.all_eq_true.mp h.1) t ht
    have h3 := of_decide_eq_true h2
    exact (List.mem_filter.mp h3).2
  · intro h
    unfold sameSet
    rw [Bool.and_eq_true]
    constructor
    · rw [List.all_eq_true]
      intro t ht
      exact decide_eq_true (List.mem_filter.mpr ⟨ht, h t ht⟩)
    · rw [List.all_eq_true]
      intro t ht
      exact decide_eq_true (List.mem_filter.mp ht).1

/-! Reduction equations for the match-based definitions. -/

theorem geneInIndex_some (gc : CategoryMap) (g : String) :
    geneInIndex gc (some g)
      = (decide (g ≠ "") && decide (catsOfGene g gc ≠ [])) := rfl

theorem geneInIndex_none (gc : CategoryMap) : geneInIndex gc none = false := rfl

theorem truthy_some (g : String) : truthy (some g) = decide (g ≠ "") := rfl

/-! Helper lemmas about dictionary update and gene-name resolution. -/

theorem lookupProp_setProp (props : List (String × PropValue)) (col : String)
    (v : PropValue) (nm : String) :
    lookupProp (setProp props col v) nm
      = if nm = col then some v else lookupProp props nm := by
  induction props with
  | nil =>
      by_cases h : nm = col
      · simp [setProp, lookupProp, h]
      · have h2 : ¬ col = nm := fun hh => h hh.symm
        simp [setProp, lookupProp, h, h2]
  | cons q rest ih =>
      by_cases hq : q.1 = col
      · have hset : setProp (q :: rest) col v = (col, v) :: rest := by
          simp [setProp, hq]
        rw [hset]
        by_cases h : nm = col
        · simp [lookupProp, h]
        · have h2 : ¬ col = nm := fun hh => h hh.symm
          have h3 : ¬ q.1 = nm := fun hh => h2 (hq.symm.trans hh)
          simp [lookupProp, h2, h3, h]
      · have hset : setProp (q :: rest) col v = q :: setProp rest col v := by
          simp [setProp, hq]
        rw [hset]
        by_cases hqnm : q.1 = nm
        · have h : ¬ nm = col := fun hh => hq (hqnm.trans hh)
          simp [lookupProp, hqnm, h]
        · simp [lookupProp, hqnm, ih]

theorem lookupProp_all_multi (col : String) (props : List (String × PropValue))
    (hall : ∀ q ∈ props, q.1 = col → ∃ ts, q.2 = PropValue.multiSelect ts)
    (v : PropValue) (hv : lookupProp props col = some v) :
    ∃ ts, v = PropValue.multiSelect ts := by
  induction props with
  | nil => simp [lookupProp] at hv
  | cons q rest ih =>
      by_cases hq : q.1 = col
      · rw [lookupProp, if_pos hq] at hv
        rcases hall q (List.mem_cons_self q rest) hq with ⟨ts, hts⟩
        exact ⟨ts, by rw [← Option.some_inj.mp hv, hts]⟩
      · rw [lookupProp, if_neg hq] at hv
        exact ih (fun x hx => hall x (List.mem_cons_of_mem q hx)) hv

theorem colConsistent_entries (col : String) (p : Page)
    (hc : colConsistent col p = true) :
    ∀ q ∈ p.properties, q.1 = col → ∃ ts, q.2 = PropValue.multiSelect ts := by
  intro q hq hcol
  have h := List.all_eq_true.mp hc q hq
  rw [Bool.or_eq_true] at h
  rcases h with h | h
  · rw [hcol] at h
    simp at h
  · cases hv : q.2 with
    | multiSelect ts => exact ⟨ts, rfl⟩
    | title ts => rw [hv] at h; simp at h
    | richText ts => rw [hv] at h; simp at h
    | select s => rw [hv] at h; simp at h
    | other => rw [hv] at h; simp at h

theorem firstResolved_congr (props props' : List (String × PropValue))
    (h : ∀ nm, (lookupProp props nm).bind resolveFromProp
          = (lookupProp props' nm).bind resolveFromProp) :
    ∀ cands : List String, firstResolved props cands = firstResolved props' cands := by
  intro cands
  induction cands with
  | nil => rfl
  | cons nm rest ih => rw [firstResolved, firstResolved, h nm, ih]

theorem resolveGeneName_setProp (col : String) (p : Page) (ts : List String)
    (hc : colConsistent col p = true) :
    resolveGeneName (setProp p.properties col (PropValue.multiSelect ts))
      = resolveGeneName p.properties := by
  unfold resolveGeneName
  apply firstResolved_congr
  intro nm
  rw [lookupProp_setProp]
  by_cases h : nm = col
  · rw [if_pos h, h]
    cases hv : lookupProp p.properties col with
    | none => simp [resolveFromProp]
    | some v =>
        rcases lookupProp_all_multi col p.properties
          (colConsistent_entries col p hc) v hv with ⟨us, hus⟩
        simp [resolveFromProp, hus]
  · rw [if_neg h]

theorem existingTagsOf_setProp (props : List (String × PropValue)) (col : String)
    (ts : List String) :
    existingTagsOf (setProp props col (PropValue.multiSelect ts)) col = ts := by
  unfold existingTagsOf
  rw [lookupProp_setProp, if_pos rfl]

/-! Accessor equations for `processPage` and the per-page idempotence. -/

theorem processPage_newTags (gc : CategoryMap) (col : String) (p : Page) :
    (processPage gc col p).newTags =
      (existingTagsOf p.properties col).filter (fun t => decide (t ∉ allTags gc))
        ++ categoryTagsFor gc (resolveGeneName p.properties) := rfl

theorem processPage_changed (gc : CategoryMap) (col : String) (p : Page) :
    (processPage gc col p).changed =
      !sameSet (existingTagsOf p.properties col) (processPage gc col p).newTags := rfl

theorem processPage_changed_false_of (gc : CategoryMap) (col : String) (p p' : Page)
    (hgn : resolveGeneName p'.properties = resolveGeneName p.properties)
    (he : existingTagsOf p'.properties col = (processPage gc col p).newTags) :
    (processPage gc col p').changed = false := by
  rw [processPage_changed, processPage_newTags, hgn, he, processPage_newTags,
      List.filter_append, filter_idem,
      filter_nil_of_mem_allTags gc _
        (fun t ht => categoryTagsFor_mem_allTags gc _ t ht),
      List.append_nil, ← processPage_newTags, sameSet_self]
  rfl

theorem processPage_postPage (gc : CategoryMap) (col : String) (p : Page)
    (hc : colConsistent col p = true) :
    (processPage gc col (postPage gc col p)).changed = false := by
  by_cases hch : (processPage gc col p).changed = true
  · have hprops : (postPage gc col p).properties
        = setProp p.properties col
            (PropValue.multiSelect (processPage gc col p).newTags) := by
      unfold postPage
      rw [if_pos hch]
    exact processPage_changed_false_of gc col p (postPage gc col p)
      (by rw [hprops]; exact resolveGeneName_setProp col p _ hc)
      (by rw [hprops]; exact existingTagsOf_setProp p.properties col _)
  · have hpost : postPage gc col p = p := by
      unfold postPage
      rw [if_neg hch]
    rw [hpost]
    simp at hch
    exact hch

/-- C2. Tag-set correctness: for every fetched record, the tag list the
engine computes (and, when it differs from the current set, writes)
contains exactly the record's current tags that are not category names,
together with the categories its resolved member identifier belongs to
(none when no identifier resolves, or the resolved text is empty, or it
belongs to no category). -/
theorem tag_set_correct (gc : CategoryMap) (col : String) (p : Page) (t : String) :
    t ∈ (processPage gc col p).newTags ↔
      (t ∈ existingTagsOf p.properties col ∧ t ∉ allTags gc)
      ∨ (∃ g, resolveGeneName p.properties = some g ∧ g ≠ ""
              ∧ t ∈ catsOfGene g gc) := by
  rw [processPage_newTags, List.mem_append, List.mem_filter]
  constructor
  · rintro (⟨h1, h2⟩ | h)
    · exact Or.inl ⟨h1, of_decide_eq_true h2⟩
    · right
      unfold categoryTagsFor at h
      by_cases hg : geneInIndex gc (resolveGeneName p.properties) = true
      · rw [if_pos hg] at h
        cases hgn : resolveGeneName p.properties with
        | none => rw [hgn, geneInIndex_none] at hg; exact absurd hg (by simp)
        | some g =>
            rw [hgn] at hg h
            rw [geneInIndex_some, Bool.and_eq_true] at hg
            exact ⟨g, rfl, of_decide_eq_true hg.1, by simpa using h⟩
      · rw [if_neg hg] at h
        simp at h
  · rintro (⟨h1, h2⟩ | ⟨g, hg, hne, hmem⟩)
    · exact Or.inl ⟨h1, decide_eq_true h2⟩
    · right
      have hnonnil : catsOfGene g gc ≠ [] := fun hnil => by
        rw [hnil] at hmem
        simp at hmem
      have hcond : geneInIndex gc (resolveGeneName p.properties) = true := by
        rw [hg, geneInIndex_some, Bool.and_eq_true]
        exact ⟨decide_eq_true hne, decide_eq_true hnonnil⟩
      unfold categoryTagsFor
      rw [if_pos hcond, hg]
      simpa using hmem

/-- C4 counterexample: a record with no identifier property at all but a
stale category tag `A` is not skipped — the engine issues a
property-patch request clearing the tag and counts the page as updated,
contradicting the claim that such records receive no write, keep their
tags, and are not counted as updated. -/
theorem no_identifier_record_still_written :
    ∃ r, runEngine [("A", ["g1"])] "tags" false
        ⟨true, ColumnConfig.absent, true,
         [⟨true, [⟨"p1", [("tags", PropValue.multiSelect ["A"])]⟩], false, none⟩],
         []⟩
        = Except.ok r
      ∧ r.pagePatches = [("p1", [])]
      ∧ r.stats.pages_updated = 1
      ∧ truthy (resolveGeneName [("tags", PropValue.multiSelect ["A"])]) = false := by
  refine ⟨_, rfl, ?_, ?_, ?_⟩ <;> decide

/-- C4 amended: a record whose identifier does not resolve is counted
neither in `genes_found` nor in `genes_with_categories`, and its target
category set is empty, so its recomputed tags are exactly its current
tags minus all category names; consequently it is left unchanged (no
write) precisely when none of its current tags is a category name —
otherwise its stale category tags are stripped by a write. -/
theorem no_identifier_behavior (gc : CategoryMap) (col : String) (p : Page)
    (h : truthy (resolveGeneName p.properties) = false) :
    (processPage gc col p).geneFound = false
    ∧ (processPage gc col p).hasCats = false
    ∧ (processPage gc col p).newTags
        = (existingTagsOf p.properties col).filter
            (fun t => decide (t ∉ allTags gc))
    ∧ ((processPage gc col p).changed = false
        ↔ ∀ t ∈ existingTagsOf p.properties col, t ∉ allTags gc) := by
  have hidx : geneInIndex gc (resolveGeneName p.properties) = false := by
    cases hgn : resolveGeneName p.properties with
    | none => exact geneInIndex_none gc
    | some g =>
        rw [hgn, truthy_some] at h
        rw [geneInIndex_some, h, Bool.false_and]
  have hcats : categoryTagsFor gc (resolveGeneName p.properties) = [] := by
    unfold categoryTagsFor
    rw [hidx]
    rfl
  have hnotfalse : ∀ b : Bool, ((!b) = false) ↔ (b = true) := by decide
  refine ⟨h, hidx, ?_, ?_⟩
  · rw [processPage_newTags, hcats, List.append_nil]
  · rw [processPage_changed, processPage_newTags, hcats, List.append_nil,
        hnotfalse, sameSet_filter_iff]
    constructor
    · intro hh t ht
      exact of_decide_eq_true (hh t ht)
    · intro hh t ht
      exact decide_eq_true (hh t ht)

/-- C4 witness for the amended theorem: a page with no properties. -/
theorem no_identifier_behavior_witness :
    truthy (resolveGeneName (Page.mk "p9" []).properties) = false
    ∧ (processPage [("A", ["g1"])] "tags" (Page.mk "p9" [])).geneFound = false
    ∧ (processPage [("A", ["g1"])] "tags" (Page.mk "p9" [])).hasCats = false
    ∧ (processPage [("A", ["g1"])] "tags" (Page.mk "p9" [])).newTags
        = (existingTagsOf (Page.mk "p9" []).properties "tags").filter
            (fun t => decide (t ∉ allTags [("A", ["g1"])]))
    ∧ ((processPage [("A", ["g1"])] "tags" (Page.mk "p9" [])).changed = false
        ↔ ∀ t ∈ existingTagsOf (Page.mk "p9" []).properties "tags",
            t ∉ allTags [("A", ["g1"])]) := by
  refine ⟨by decide, ?_⟩
  exact no_identifier_behavior [("A", ["g1"])] "tags" (Page.mk "p9" []) (by decide)

/-! Fold lemmas for the per-page loop. -/

theorem foldl_unchanged (gc : CategoryMap) (col : String) (dry : Bool)
    (failing : List String) (pages : List Page) :
    ∀ st : LoopState,
    (∀ p ∈ pages, (processPage gc col p).changed = false) →
    ((pages.foldl (stepPage gc col dry failing) st).stats.pages_updated
        = st.stats.pages_updated)
    ∧ ((pages.foldl (stepPage gc col dry failing) st).patches = st.patches) := by
  induction pages with
  | nil => intro st _; exact ⟨rfl, rfl⟩
  | cons p ps ih =>
      intro st h
      have hp := h p (List.mem_cons_self p ps)
      have hstep_upd : (stepPage gc col dry failing st p).stats.pages_updated
          = st.stats.pages_updated := by
        simp [stepPage, hp]
      have hstep_pat : (stepPage gc col dry failing st p).patches = st.patches := by
        simp [stepPage, hp]
      rw [List.foldl_cons]
      rcases ih (stepPage gc col dry failing st p)
        (fun q hq => h q (List.mem_cons_of_mem p hq)) with ⟨h1, h2⟩
      exact ⟨h1.trans hstep_upd, h2.trans hstep_pat⟩

theorem foldl_newPages_nofail (gc : CategoryMap) (col : String) (pages : List Page) :
    ∀ st : LoopState,
    (pages.foldl (stepPage gc col false []) st).newPages
      = st.newPages ++ pages.map (postPage gc col) := by
  induction pages with
  | nil => intro st; simp
  | cons p ps ih =>
      intro st
      rw [List.foldl_cons, ih]
      have hstep : (stepPage gc col false [] st p).newPages
          = st.newPages ++ [postPage gc col p] := by
        by_cases h : (processPage gc col p).changed = true
        · simp [stepPage, postPage, h]
        · simp at h
          simp [stepPage, postPage, h]
      rw [hstep]
      simp

theorem foldl_total_pages (gc : CategoryMap) (col : String) (dry : Bool)
    (failing : List String) (pages : List Page) :
    ∀ st : LoopState,
    (pages.foldl (stepPage gc col dry failing) st).stats.total_pages
      = st.stats.total_pages := by
  induction pages with
  | nil => intro st; rfl
  | cons p ps ih =>
      intro st
      rw [List.foldl_cons, ih]
      rfl

theorem foldl_partition (gc : CategoryMap) (col : String) (dry : Bool)
    (failing : List String) (pages : List Page) :
    ∀ st : LoopState,
    (pages.foldl (stepPage gc col dry failing) st).stats.pages_updated
      + (pages.foldl (stepPage gc col dry failing) st).stats.pages_skipped
      + (pages.foldl (stepPage gc col dry failing) st).stats.errors.length
    = st.stats.pages_updated + st.stats.pages_skipped + st.stats.errors.length
      + pages.length := by
  induction pages with
  | nil => intro st; simp
  | cons p ps ih =>
      intro st
      rw [List.foldl_cons]
      have hstep :
          (stepPage gc col dry failing st p).stats.pages_updated
            + (stepPage gc col dry failing st p).stats.pages_skipped
            + (stepPage gc col dry failing st p).stats.errors.length
          = st.stats.pages_updated + st.stats.pages_skipped
            + st.stats.errors.length + 1 := by
        by_cases hmem : p.id ∈ failing <;>
          cases hch : (processPage gc col p).changed <;>
            cases hdry : dry <;>
              simp [stepPage, hch, hdry, hmem] <;> omega
      rw [ih, hstep]
      simp [List.length_cons]
      omega

theorem foldl_dry (gc : CategoryMap) (col : String) (failing : List String)
    (pages : List Page) :
    ∀ st : LoopState,
    (pages.foldl (stepPage gc col true failing) st).patches = st.patches
    ∧ (pages.foldl (stepPage gc col true failing) st).newPages
        = st.newPages ++ pages
    ∧ (pages.foldl (stepPage gc col true failing) st).stats.pages_updated
        = st.stats.pages_updated
          + (pages.filter (fun p => (processPage gc col p).changed)).length := by
  induction pages with
  | nil => intro st; exact ⟨rfl, by simp, by simp⟩
  | cons p ps ih =>
      intro st
      rw [List.foldl_cons]
      rcases ih (stepPage gc col true failing st p) with ⟨h1, h2, h3⟩
      refine ⟨?_, ?_, ?_⟩
      · rw [h1]
        simp [stepPage]
      · rw [h2]
        have hstep : (stepPage gc col true failing st p).newPages
            = st.newPages ++ [p] := by
          simp [stepPage]
        rw [hstep]
        simp
      · rw [h3]
        have hstep : (stepPage gc col true failing st p).stats.pages_updated
            = st.stats.pages_updated
              + (if (processPage gc col p).changed then 1 else 0) := by
          simp [stepPage]
        rw [hstep, List.filter_cons]
        by_cases h : (processPage gc col p).changed = true <;> simp [h] <;> omega

/-! Inversion of a successful engine run. -/

theorem runEngine_ok_elim (gc : CategoryMap) (col : String) (dry : Bool)
    (env : RemoteEnv) (r : RunResult)
    (h : runEngine gc col dry env = Except.ok r) :
    ∃ r0 rest, env.batches = r0 :: rest ∧ r0.ok = true
      ∧ r.stats = (runPages gc col dry env.failingPages r0.results).stats
      ∧ r.pagePatches = (runPages gc col dry env.failingPages r0.results).patches
      ∧ r.finalPages = (runPages gc col dry env.failingPages r0.results).newPages
      ∧ r.schemaPatches
          = (if !(schemaStep (allTags gc) (existingOptions env.schema)).2.isEmpty
                && !dry
             then [(schemaStep (allTags gc) (existingOptions env.schema)).1]
             else [])
      ∧ r.finalSchema
          = (if !(schemaStep (allTags gc) (existingOptions env.schema)).2.isEmpty
                && !dry
             then ColumnConfig.multiSelect
                    (schemaStep (allTags gc) (existingOptions env.schema)).1
             else env.schema) := by
  simp only [runEngine] at h
  split at h
  · exact absurd h (by simp)
  · split at h
    · exact absurd h (by simp)
    · split at h
      · exact absurd h (by simp)
      · split at h
        · exact absurd h (by simp)
        · rename_i fr hfetch
          cases hb : env.batches with
          | nil => rw [hb] at hfetch; exact absurd hfetch (by simp [fetchLoop])
          | cons r0 rest =>
              rw [hb] at hfetch
              by_cases hok : r0.ok = true
              · have hfr : fr = FetchResult.mk r0.results 1 := by
                  simp only [fetchLoop] at hfetch
                  rw [if_pos hok] at hfetch
                  exact (Except.ok.inj hfetch).symm
                refine ⟨r0, rest, rfl, hok, ?_⟩
                rw [hfr] at h
                have hr := (Except.ok.injEq _ _).mp h.symm
                rw [hr]
                exact ⟨rfl, rfl, rfl, rfl, rfl⟩
              · rw [fetchLoop, if_neg hok] at hfetch
                exact absurd hfetch (by simp)

/-- C7. Simulation (dry-run) mode issues no mutating remote calls: a
completed dry run sends no schema patch and no page patch, leaves the
remote schema and all fetched pages untouched, and still counts every
record whose recomputed tag set differs as updated ("would update"). -/
theorem dry_run_no_mutations (gc : CategoryMap) (col : String) (env : RemoteEnv)
    (r : RunResult) (h : runEngine gc col true env = Except.ok r) :
    r.schemaPatches = [] ∧ r.pagePatches = []
    ∧ r.finalSchema = env.schema
    ∧ (∃ r0 rest, env.batches = r0 :: rest ∧ r.finalPages = r0.results
        ∧ r.stats.pages_updated
            = (r0.results.filter (fun p => (processPage gc col p).changed)).length) := by
  rcases runEngine_ok_elim gc col true env r h with
    ⟨r0, rest, hb, hok, hstats, hpat, hfinal, hsp, hfs⟩
  have hcond : (!(schemaStep (allTags gc) (existingOptions env.schema)).2.isEmpty
      && !true) = false := by simp
  rcases foldl_dry gc col env.failingPages r0.results
    ⟨initStats r0.results.length, [], []⟩ with ⟨h1, h2, h3⟩
  refine ⟨?_, ?_, ?_, r0, rest, hb, ?_, ?_⟩
  · rw [hsp, hcond]
    rfl
  · rw [hpat]
    unfold runPages
    exact h1
  · rw [hfs, hcond]
    rfl
  · rw [hfinal]
    unfold runPages
    rw [h2]
    simp
  · rw [hstats]
    unfold runPages
    rw [h3]
    simp [initStats]

/-- C7 witness: a one-page dry run whose page would change is counted as
updated while no mutating request is issued. -/
theorem dry_run_no_mutations_witness :
    runEngine [("A", ["g1"])] "tags" true
        ⟨true, ColumnConfig.absent, true,
         [⟨true, [⟨"d1", [("gene_name", PropValue.title ["g1"])]⟩], false, none⟩], []⟩
      = Except.ok ⟨⟨1, 1, 0, 1, 1, 1, 0, []⟩, [], [], 1, ColumnConfig.absent,
          [⟨"d1", [("gene_name", PropValue.title ["g1"])]⟩]⟩
    ∧ ((⟨⟨1, 1, 0, 1, 1, 1, 0, []⟩, [], [], 1, ColumnConfig.absent,
          [⟨"d1", [("gene_name", PropValue.title ["g1"])]⟩]⟩ : RunResult).schemaPatches
          = []
        ∧ (⟨⟨1, 1, 0, 1, 1, 1, 0, []⟩, [], [], 1, ColumnConfig.absent,
            [⟨"d1", [("gene_name", PropValue.title ["g1"])]⟩]⟩ : RunResult).pagePatches
          = []
        ∧ (⟨⟨1, 1, 0, 1, 1, 1, 0, []⟩, [], [], 1, ColumnConfig.absent,
            [⟨"d1", [("gene_name", PropValue.title ["g1"])]⟩]⟩ : RunResult).finalSchema
          = ColumnConfig.absent
        ∧ (∃ r0 rest,
            (⟨true, ColumnConfig.absent, true,
              [⟨true, [⟨"d1", [("gene_name", PropValue.title ["g1"])]⟩], false, none⟩],
              []⟩ : RemoteEnv).batches = r0 :: rest
            ∧ (⟨⟨1, 1, 0, 1, 1, 1, 0, []⟩, [], [], 1, ColumnConfig.absent,
                [⟨"d1", [("gene_name", PropValue.title ["g1"])]⟩]⟩ : RunResult).finalPages
              = r0.results
            ∧ (⟨⟨1, 1, 0, 1, 1, 1, 0, []⟩, [], [], 1, ColumnConfig.absent,
                [⟨"d1", [("gene_name", PropValue.title ["g1"])]⟩]⟩ : RunResult).stats.pages_updated
              = (r0.results.filter
                  (fun p => (processPage [("A", ["g1"])] "tags" p).changed)).length)) :=
  ⟨rfl,
   dry_run_no_mutations [("A", ["g1"])] "tags"
     ⟨true, ColumnConfig.absent, true,
      [⟨true, [⟨"d1", [("gene_name", PropValue.title ["g1"])]⟩], false, none⟩], []⟩
     ⟨⟨1, 1, 0, 1, 1, 1, 0, []⟩, [], [], 1, ColumnConfig.absent,
      [⟨"d1", [("gene_name", PropValue.title ["g1"])]⟩]⟩ rfl⟩

/-- C10. Statistics accounting invariant: every run that reaches the
per-record phase returns statistics with
`pages_updated + pages_skipped + |errors| = total_pages`, and
`total_pages` is the number of records fetched. -/
theorem stats_partition_invariant (gc : CategoryMap) (col : String) (dry : Bool)
    (env : RemoteEnv) (r : RunResult)
    (h : runEngine gc col dry env = Except.ok r) :
    r.stats.pages_updated + r.stats.pages_skipped + r.stats.errors.length
      = r.stats.total_pages
    ∧ ∃ r0 rest, env.batches = r0 :: rest
        ∧ r.stats.total_pages = r0.results.length := by
  rcases runEngine_ok_elim gc col dry env r h with
    ⟨r0, rest, hb, hok, hstats, _, _, _, _⟩
  have hpart := foldl_partition gc col dry env.failingPages r0.results
    ⟨initStats r0.results.length, [], []⟩
  have htot := foldl_total_pages gc col dry env.failingPages r0.results
    ⟨initStats r0.results.length, [], []⟩
  have htot2 : (runPages gc col dry env.failingPages r0.results).stats.total_pages
      = r0.results.length := by
    unfold runPages
    rw [htot]
    simp [initStats]
  constructor
  · rw [hstats]
    unfold runPages
    rw [hpart, htot]
    simp [initStats]
  · exact ⟨r0, rest, hb, by rw [hstats, htot2]⟩

/-- C10 witness: a one-page run whose single property patch fails, so the
record lands in the error bucket: 0 + 0 + 1 = 1 = total fetched. -/
theorem stats_partition_invariant_witness :
    runEngine [("A", ["g1"])] "tags" false
        ⟨true, ColumnConfig.absent, true,
         [⟨true, [⟨"x1", [("gene_name", PropValue.title ["g1"])]⟩], false, none⟩],
         ["x1"]⟩
      = Except.ok ⟨⟨1, 0, 0, 1, 1, 1, 0, ["Failed to update page x1"]⟩,
          [[⟨"A", "red"⟩]], [("x1", ["A"])], 1,
          ColumnConfig.multiSelect [⟨"A", "red"⟩],
          [⟨"x1", [("gene_name", PropValue.title ["g1"])]⟩]⟩
    ∧ ((⟨⟨1, 0, 0, 1, 1, 1, 0, ["Failed to update page x1"]⟩,
          [[⟨"A", "red"⟩]], [("x1", ["A"])], 1,
          ColumnConfig.multiSelect [⟨"A", "red"⟩],
          [⟨"x1", [("gene_name", PropValue.title ["g1"])]⟩]⟩ : RunResult).stats.pages_updated
        + (⟨⟨1, 0, 0, 1, 1, 1, 0, ["Failed to update page x1"]⟩,
            [[⟨"A", "red"⟩]], [("x1", ["A"])], 1,
            ColumnConfig.multiSelect [⟨"A", "red"⟩],
            [⟨"x1", [("gene_name", PropValue.title ["g1"])]⟩]⟩ : RunResult).stats.pages_skipped
        + (⟨⟨1, 0, 0, 1, 1, 1, 0, ["Failed to update page x1"]⟩,
            [[⟨"A", "red"⟩]], [("x1", ["A"])], 1,
            ColumnConfig.multiSelect [⟨"A", "red"⟩],
            [⟨"x1", [("gene_name", PropValue.title ["g1"])]⟩]⟩ : RunResult).stats.errors.length
        = (⟨⟨1, 0, 0, 1, 1, 1, 0, ["Failed to update page x1"]⟩,
            [[⟨"A", "red"⟩]], [("x1", ["A"])], 1,
            ColumnConfig.multiSelect [⟨"A", "red"⟩],
            [⟨"x1", [("gene_name", PropValue.title ["g1"])]⟩]⟩ : RunResult).stats.total_pages
       ∧ ∃ r0 rest,
          (⟨true, ColumnConfig.absent, true,
            [⟨true, [⟨"x1", [("gene_name", PropValue.title ["g1"])]⟩], false, none⟩],
            ["x1"]⟩ : RemoteEnv).batches = r0 :: rest
          ∧ (⟨⟨1, 0, 0, 1, 1, 1, 0, ["Failed to update page x1"]⟩,
              [[⟨"A", "red"⟩]], [("x1", ["A"])], 1,
              ColumnConfig.multiSelect [⟨"A", "red"⟩],
              [⟨"x1", [("gene_name", PropValue.title ["g1"])]⟩]⟩ : RunResult).stats.total_pages
            = r0.results.length) :=
  ⟨rfl,
   stats_partition_invariant [("A", ["g1"])] "tags" false
     ⟨true, ColumnConfig.absent, true,
      [⟨true, [⟨"x1", [("gene_name", PropValue.title ["g1"])]⟩], false, none⟩],
      ["x1"]⟩
     ⟨⟨1, 0, 0, 1, 1, 1, 0, ["Failed to update page x1"]⟩,
      [[⟨"A", "red"⟩]], [("x1", ["A"])], 1,
      ColumnConfig.multiSelect [⟨"A", "red"⟩],
      [⟨"x1", [("gene_name", PropValue.title ["g1"])]⟩]⟩ rfl⟩

/-- C8 counterexample: a run whose schema fetch fails raises the
exception before any statistics object exists — the engine returns an
error, not a summary, contradicting the claim that a final summary is
still printed/returned on a schema-handling abort. -/
theorem schema_abort_no_summary_counterexample :
    runEngine [("A", ["g1"])] "tags" false
      ⟨false, ColumnConfig.absent, true, [], []⟩
      = Except.error "Failed to fetch database" := rfl

/-- C8 amended: a fatal error in schema handling (schema fetch failure,
or schema patch failure when there are new tags to add in non-dry mode)
aborts the run with an exception and no RunStatistics value is returned;
a summary exists only for runs that complete the per-record phase. -/
theorem fatal_schema_error_returns_no_summary (gc : CategoryMap) (col : String)
    (dry : Bool) (env env' : RemoteEnv)
    (h1 : env.schemaFetchOk = false)
    (h2 : env'.schemaFetchOk = true)
    (h3 : env'.schema ≠ ColumnConfig.otherType)
    (h4 : (schemaStep (allTags gc) (existingOptions env'.schema)).2 ≠ [])
    (h5 : env'.schemaPatchOk = false) :
    runEngine gc col dry env = Except.error "Failed to fetch database"
    ∧ runEngine gc col false env'
        = Except.error "Failed to update database schema" := by
  have hemp : (schemaStep (allTags gc) (existingOptions env'.schema)).2.isEmpty
      = false := by
    cases hl : (schemaStep (allTags gc) (existingOptions env'.schema)).2 with
    | nil => exact absurd hl h4
    | cons a l => rfl
  constructor
  · simp [runEngine, h1]
  · simp [runEngine, h2, h3, h5, hemp]

/-- C8 witness for the amended theorem: one environment failing the
schema fetch, one failing the schema patch with a new tag pending. -/
theorem fatal_schema_error_returns_no_summary_witness :
    runEngine [("A", ["g1"])] "tags" true
        ⟨false, ColumnConfig.multiSelect [], true, [], []⟩
      = Except.error "Failed to fetch database"
    ∧ runEngine [("A", ["g1"])] "tags" false
        ⟨true, ColumnConfig.absent, false, [], []⟩
      = Except.error "Failed to update database schema" :=
  fatal_schema_error_returns_no_summary [("A", ["g1"])] "tags" true
    ⟨false, ColumnConfig.multiSelect [], true, [], []⟩
    ⟨true, ColumnConfig.absent, false, [], []⟩
    rfl rfl (by decide) (by decide) rfl

/-! Wrapper lemmas phrased on `runPages` directly. -/

theorem runPages_unchanged (gc : CategoryMap) (col : String) (dry : Bool)
    (failing : List String) (pages : List Page)
    (h : ∀ p ∈ pages, (processPage gc col p).changed = false) :
    (runPages gc col dry failing pages).stats.pages_updated = 0
    ∧ (runPages gc col dry failing pages).patches = [] := by
  rcases foldl_unchanged gc col dry failing pages
    ⟨initStats pages.length, [], []⟩ h with ⟨h1, h2⟩
  constructor
  · unfold runPages
    rw [h1]
    simp [initStats]
  · unfold runPages
    rw [h2]

theorem runPages_newPages_eq (gc : CategoryMap) (col : String) (pages : List Page) :
    (runPages gc col false [] pages).newPages = pages.map (postPage gc col) := by
  unfold runPages
  rw [foldl_newPages_nofail gc col pages ⟨initStats pages.length, [], []⟩]
  simp

/-! An all-success single-batch run, in closed form. -/

theorem runEngine_allok (gc : CategoryMap) (col : String) (s : ColumnConfig)
    (ps : List Page) (b : Bool) (c : Option String)
    (hs : s ≠ ColumnConfig.otherType) :
    runEngine gc col false ⟨true, s, true, [⟨true, ps, b, c⟩], []⟩
      = Except.ok
          { stats := (runPages gc col false [] ps).stats
            schemaPatches :=
              if !(schemaStep (allTags gc) (existingOptions s)).2.isEmpty && !false
              then [(schemaStep (allTags gc) (existingOptions s)).1] else []
            pagePatches := (runPages gc col false [] ps).patches
            queryCalls := 1
            finalSchema :=
              if !(schemaStep (allTags gc) (existingOptions s)).2.isEmpty && !false
              then ColumnConfig.multiSelect
                     (schemaStep (allTags gc) (existingOptions s)).1
              else s
            finalPages := (runPages gc col false [] ps).newPages } := by
  simp only [runEngine]
  rw [if_neg (by simp)]
  rw [if_neg hs]
  rw [if_neg (by simp)]
  simp only [fetchLoop]
  simp

/-- C1. Idempotence of reconciliation: with an all-success remote
(schema fetch, schema patch and all property patches succeed) serving the
record set as one query batch, and a column that is absent or already a
multi-select, running the engine and then running it again on the remote
state the first run left behind issues zero schema-patch requests, zero
property-patch requests, and reports `pages_updated = 0` in the second
run. Consistency hypothesis: every page stores the target column, when
present, as a multi-select, as the remote service guarantees. -/
theorem reconcile_idempotent (gc : CategoryMap) (col : String)
    (schema0 : ColumnConfig) (pages : List Page) (hm : Bool) (cur : Option String)
    (hs : schema0 ≠ ColumnConfig.otherType)
    (hc : ∀ p ∈ pages, colConsistent col p = true) :
    ∃ r₁ r₂,
      runEngine gc col false ⟨true, schema0, true, [⟨true, pages, hm, cur⟩], []⟩
        = Except.ok r₁
      ∧ runEngine gc col false (secondEnv r₁) = Except.ok r₂
      ∧ r₂.schemaPatches = [] ∧ r₂.pagePatches = []
      ∧ r₂.stats.pages_updated = 0 := by
  have h1 := runEngine_allok gc col schema0 pages hm cur hs
  have hunch : ∀ q ∈ (runPages gc col false [] pages).newPages,
      (processPage gc col q).changed = false := by
    rw [runPages_newPages_eq]
    intro q hq
    rcases List.mem_map.mp hq with ⟨p, hp, rfl⟩
    exact processPage_postPage gc col p (hc p hp)
  have hnames : ∀ t ∈ allTags gc,
      t ∈ (existingOptions
            (if !(schemaStep (allTags gc) (existingOptions schema0)).2.isEmpty
                && !false
             then ColumnConfig.multiSelect
                    (schemaStep (allTags gc) (existingOptions schema0)).1
             else schema0)).map SchemaOption.name := by
    intro t ht
    by_cases hdp : (schemaStep (allTags gc) (existingOptions schema0)).2.isEmpty
        = true
    · rw [if_neg (by simp [hdp])]
      have hnil : (schemaStep (allTags gc) (existingOptions schema0)).2 = [] := by
        cases hl : (schemaStep (allTags gc) (existingOptions schema0)).2 with
        | nil => rfl
        | cons a l => rw [hl] at hdp; exact absurd hdp (by simp)
      exact (schemaStep_adds_nil_iff _ _).mp hnil t ht
    · rw [if_pos (by simp [hdp])]
      exact mem_schemaStep_names (allTags gc) (existingOptions schema0) t ht
  have hfs_ne :
      (if !(schemaStep (allTags gc) (existingOptions schema0)).2.isEmpty && !false
       then ColumnConfig.multiSelect
              (schemaStep (allTags gc) (existingOptions schema0)).1
       else schema0) ≠ ColumnConfig.otherType := by
    by_cases hdp : (schemaStep (allTags gc) (existingOptions schema0)).2.isEmpty
        = true
    · rw [if_neg (by simp [hdp])]
      exact hs
    · rw [if_pos (by simp [hdp])]
      intro hcontra
      exact ColumnConfig.noConfusion hcontra
  have h2nil : (schemaStep (allTags gc)
      (existingOptions
        (if !(schemaStep (allTags gc) (existingOptions schema0)).2.isEmpty && !false
         then ColumnConfig.multiSelect
                (schemaStep (allTags gc) (existingOptions schema0)).1
         else schema0))).2 = [] :=
    (schemaStep_adds_nil_iff _ _).mpr hnames
  have h2 := runEngine_allok gc col
    (if !(schemaStep (allTags gc) (existingOptions schema0)).2.isEmpty && !false
     then ColumnConfig.multiSelect
            (schemaStep (allTags gc) (existingOptions schema0)).1
     else schema0)
    ((runPages gc col false [] pages).newPages) false none hfs_ne
  rcases runPages_unchanged gc col false []
      ((runPages gc col false [] pages).newPages) hunch with ⟨hupd, hpatch⟩
  refine ⟨_, _, h1, h2, ?_, ?_, ?_⟩
  · simp only [h2nil]
    rfl
  · exact hpatch
  · exact hupd

/-- C1 witness: one record whose stale tags get rewritten in run 1 and a
schema gaining one new option; run 2 writes nothing. -/
theorem reconcile_idempotent_witness :
    (ColumnConfig.absent ≠ ColumnConfig.otherType)
    ∧ (∀ p ∈ [(⟨"w1", [("gene_name", PropValue.title ["g1"]),
          ("tags", PropValue.multiSelect ["X"])]⟩ : Page)],
        colConsistent "tags" p = true)
    ∧ ∃ r₁ r₂,
        runEngine [("A", ["g1"])] "tags" false
          ⟨true, ColumnConfig.absent, true,
           [⟨true, [⟨"w1", [("gene_name", PropValue.title ["g1"]),
              ("tags", PropValue.multiSelect ["X"])]⟩], false, none⟩], []⟩
          = Except.ok r₁
        ∧ runEngine [("A", ["g1"])] "tags" false (secondEnv r₁) = Except.ok r₂
        ∧ r₂.schemaPatches = [] ∧ r₂.pagePatches = []
        ∧ r₂.stats.pages_updated = 0 :=
  ⟨by decide, by decide,
   reconcile_idempotent [("A", ["g1"])] "tags" ColumnConfig.absent
     [⟨"w1", [("gene_name", PropValue.title ["g1"]),
        ("tags", PropValue.multiSelect ["X"])]⟩] false none
     (by decide) (by decide)⟩

/-! Rate limiter lemmas. -/

theorem wait_if_needed_last (rl : RateLimiter) (now : ℚ) :
    (wait_if_needed rl now).2.last_request_time
      = now + (wait_if_needed rl now).1 := rfl

theorem wait_if_needed_min (rl : RateLimiter) (now : ℚ) :
    (wait_if_needed rl now).2.min_interval = rl.min_interval := rfl

theorem wait_if_needed_sleep (rl : RateLimiter) (now : ℚ) :
    (wait_if_needed rl now).1
      = max 0 (rl.min_interval - (now - rl.last_request_time)) := by
  show (if now - rl.last_request_time < rl.min_interval
        then rl.min_interval - (now - rl.last_request_time) else 0)
      = max 0 (rl.min_interval - (now - rl.last_request_time))
  by_cases h : now - rl.last_request_time < rl.min_interval
  · rw [if_pos h, max_eq_right (by linarith)]
  · rw [if_neg h, max_eq_left (by linarith)]

theorem wait_if_needed_step (rl : RateLimiter) (now : ℚ)
    (h : rl.last_request_time ≤ now) :
    rl.last_request_time + rl.min_interval
      ≤ (wait_if_needed rl now).2.last_request_time := by
  rw [wait_if_needed_last, wait_if_needed_sleep]
  rcases le_or_lt (rl.min_interval - (now - rl.last_request_time)) 0 with hle | hlt
  · rw [max_eq_left hle]
    linarith
  · rw [max_eq_right (le_of_lt hlt)]
    linarith

theorem runCalls_bound (ts : List ℚ) :
    ∀ rl : RateLimiter, clockMono rl ts →
    rl.last_request_time + (ts.length : ℚ) * rl.min_interval
      ≤ (runCalls rl ts).last_request_time := by
  induction ts with
  | nil =>
      intro rl _
      simp [runCalls]
  | cons t ts ih =>
      intro rl hc
      rcases hc with ⟨h1, h2⟩
      have hstep := wait_if_needed_step rl t h1
      have hih := ih (wait_if_needed rl t).2 h2
      rw [wait_if_needed_min] at hih
      rw [runCalls]
      have hlen : (((t :: ts).length : ℚ)) * rl.min_interval
          = rl.min_interval + (ts.length : ℚ) * rl.min_interval := by
        push_cast [List.length_cons]
        ring
      rw [hlen]
      linarith

theorem first_call_no_sleep (m t0 : ℚ) (ht0 : 1 / m ≤ t0) :
    (wait_if_needed (RateLimiter.init m) t0).1 = 0 := by
  rw [wait_if_needed_sleep]
  have h : (RateLimiter.init m).min_interval
      - (t0 - (RateLimiter.init m).last_request_time) ≤ 0 := by
    show 1 / m - (t0 - 0) ≤ 0
    linarith
  rw [max_eq_left h]

/-- C9. Rate limiter contract: `wait_if_needed` is a total function (it
never fails); the derived interval is `1 / max_per_second`; a first call
on a fresh limiter never sleeps (for any epoch clock reading of at least
one interval, as `time.time()` always is); every call sleeps exactly the
nonnegative deficit against the minimum interval; and across any
admissible sequence of calls the completion timestamp advances by at
least one minimum interval per call, so the `N - 1` calls after the first
take at least `(N - 1) / max_per_second` of elapsed time. -/
theorem rate_limiter_contract (m t0 : ℚ) (rl : RateLimiter) (ts : List ℚ)
    (ht0 : 1 / m ≤ t0) (hchain : clockMono rl ts) :
    (RateLimiter.init m).min_interval = 1 / m
    ∧ (wait_if_needed (RateLimiter.init m) t0).1 = 0
    ∧ (∀ now, (wait_if_needed rl now).1
        = max 0 (rl.min_interval - (now - rl.last_request_time)))
    ∧ rl.last_request_time + (ts.length : ℚ) * rl.min_interval
        ≤ (runCalls rl ts).last_request_time :=
  ⟨rfl, first_call_no_sleep m t0 ht0,
   fun now => wait_if_needed_sleep rl now,
   runCalls_bound ts rl hchain⟩

/-- C9 witness: a limiter at 3 requests per second, the first call at
time 10, then two admissible calls. -/
theorem rate_limiter_contract_witness :
    ((1 : ℚ) / 3 ≤ 10)
    ∧ clockMono ⟨3, 1/3, 10⟩ [10, 11]
    ∧ ((RateLimiter.init 3).min_interval = 1 / 3
       ∧ (wait_if_needed (RateLimiter.init 3) 10).1 = 0
       ∧ (∀ now, (wait_if_needed (⟨3, 1/3, 10⟩ : RateLimiter) now).1
            = max 0 ((⟨3, 1/3, 10⟩ : RateLimiter).min_interval
                - (now - (⟨3, 1/3, 10⟩ : RateLimiter).last_request_time)))
       ∧ (⟨3, 1/3, 10⟩ : RateLimiter).last_request_time
           + (([10, 11] : List ℚ).length : ℚ)
               * (⟨3, 1/3, 10⟩ : RateLimiter).min_interval
         ≤ (runCalls ⟨3, 1/3, 10⟩ [10, 11]).last_request_time) :=
  ⟨by norm_num,
   by
    refine ⟨by norm_num, ?_, trivial⟩
    show (wait_if_needed ⟨3, 1/3, 10⟩ 10).2.last_request_time ≤ 11
    rw [wait_if_needed_last, wait_if_needed_sleep]
    norm_num,
   rate_limiter_contract 3 10 ⟨3, 1/3, 10⟩ [10, 11] (by norm_num)
     (by
      refine ⟨by norm_num, ?_, trivial⟩
      show (wait_if_needed ⟨3, 1/3, 10⟩ 10).2.last_request_time ≤ 11
      rw [wait_if_needed_last, wait_if_needed_sleep]
      norm_num)⟩

end NotionUtils
